import Mathlib

/-!
Verification of the burst-buffer state persistence and recovery engine of
`src/plugins/burst_buffer/lua/burst_buffer_lua.c` (functions `_save_bb_state`,
`_recover_bb_state`, `_load_state`), shallowly embedded in Lean.

Byte streams are `List Nat` with each byte below 256.  The packing helpers
(`pack16`, `pack32`, `pack64`, `pack_time`, `packstr` and the `safe_unpack*`
family) live in the repository's common packing library, which is not part of
the source tree under verification; they are modelled from the spec
(fixed-width big-endian integers, length-prefixed strings, absent strings
encoded as empty).  A failing `safe_unpack*` corresponds to the C code's
`goto unpack_error` (a truncated stream).
-/

set_option maxRecDepth 10000

namespace BurstBufferLua

/-- Modelled from the spec: fixed-width big-endian encoding of `n` in `w`
bytes, most significant byte first (the common packing library is not under
`src/`). Only the low `w` bytes of `n` are represented. -/
def packBE : Nat → Nat → List Nat
  | 0, _ => []
  | w + 1, n => (n / 256 ^ w) % 256 :: packBE w n

/-- Modelled from the spec: read `w` bytes, most significant first; `none`
models a short read (the C `safe_unpack*` failure path, `goto unpack_error`). -/
def unpackBE : Nat → List Nat → Option (Nat × List Nat)
  | 0, l => some (0, l)
  | _ + 1, [] => none
  | w + 1, b :: l =>
    match unpackBE w l with
    | none => none
    | some (v, r) => some (b * 256 ^ w + v, r)

/-- Modelled from the spec: `pack16` writes a fixed-width 16-bit tag. -/
def pack16 (n : Nat) : List Nat := packBE 2 n

/-- Modelled from the spec: `pack32` writes a fixed-width 32-bit value. -/
def pack32 (n : Nat) : List Nat := packBE 4 n

/-- Modelled from the spec: `pack64` writes a fixed-width 64-bit value. -/
def pack64 (n : Nat) : List Nat := packBE 8 n

/-- Modelled from the spec: timestamps are packed as fixed-width 64-bit
values (non-negative times only, as a natural number of seconds). -/
def pack_time (t : Nat) : List Nat := packBE 8 t

/-- Modelled from the spec: strings are length-prefixed byte sequences; an
absent (NULL) string is identified with the empty string, which the spec says
is how absent strings are encoded. -/
def packstr (s : List Nat) : List Nat := pack32 s.length ++ s

/-- Modelled from the spec: unpack a length-prefixed string; a declared
length that exceeds the remaining bytes is a short read (`none`). -/
def unpackstr (l : List Nat) : Option (List Nat × List Nat) :=
  match unpackBE 4 l with
  | none => none
  | some (n, r) => if n ≤ r.length then some (r.take n, r.drop n) else none

/-- Modelled from the spec: the sentinel "unset" protocol version `NO_VAL16`
from the repository's public headers (not under `src/`). -/
def NO_VAL16 : Nat := 65534

/-- Modelled from the spec: the 32-bit "unset" sentinel `NO_VAL` used for
`array_task_id`. -/
def NO_VAL : Nat := 4294967294

/-- Modelled from the spec: the supported version floor
`SLURM_21_08_PROTOCOL_VERSION` (major 37, minor 0: `37 * 256`). -/
def SLURM_21_08_PROTOCOL_VERSION : Nat := 9472

/-- Modelled from the spec: the current protocol version
`SLURM_PROTOCOL_VERSION` written by the encoder; in the 21.08 release that
introduced this plugin it equals the floor. -/
def SLURM_PROTOCOL_VERSION : Nat := 9472

/-- One burst-buffer allocation record (`bb_alloc_t`), restricted to the
fields read or written by `_save_bb_state` and `_recover_bb_state`.  Strings
are byte lists; a NULL string is identified with the empty list. -/
structure BbAlloc where
  account : List Nat
  create_time : Nat
  id : Nat
  name : List Nat
  partition : List Nat
  pool : List Nat
  qos : List Nat
  user_id : Nat
  size : Nat
  job_id : Nat
  array_job_id : Nat
  array_task_id : Nat
  seen_time : Nat
deriving DecidableEq, Repr

/-- The nine fields of one record as they appear in the checkpoint stream,
in the field order of `_save_bb_state` lines 199-207. -/
structure RecFields where
  account : List Nat
  create_time : Nat
  id : Nat
  name : List Nat
  partition : List Nat
  pool : List Nat
  qos : List Nat
  user_id : Nat
  size : Nat
deriving DecidableEq, Repr

/-- The packed fields of a record, exactly the nine `pack*` calls of
`_save_bb_state` lines 199-207 in source order. -/
def packRec (b : BbAlloc) : List Nat :=
  packstr b.account ++ pack_time b.create_time ++ pack32 b.id ++ packstr b.name ++
    packstr b.partition ++ packstr b.pool ++ packstr b.qos ++ pack32 b.user_id ++
    pack64 b.size

/-- The encoded checkpoint buffer built by `_save_bb_state` lines 189-218:
version tag, record count (backpatched in C, equal to the number of records
packed), then each record.  The registry is modelled as one chain, since the
hash function and `BB_HASH_SIZE` live outside `src/` and iteration order is
unspecified by the spec. -/
def saveBuffer (recs : List BbAlloc) : List Nat :=
  pack16 SLURM_PROTOCOL_VERSION ++ pack32 recs.length ++ recs.flatMap packRec

/-- The field view of a record as re-read during recovery
(`_recover_bb_state` lines 330-338). -/
def fieldsOf (b : BbAlloc) : RecFields :=
  ⟨b.account, b.create_time, b.id, b.name, b.partition, b.pool, b.qos, b.user_id, b.size⟩

/-- The nine `safe_unpack*` calls of `_recover_bb_state` lines 330-338 in
source order; `none` is the `goto unpack_error` path (truncated stream). -/
def unpackRec (l : List Nat) : Option (RecFields × List Nat) :=
  match unpackstr l with
  | none => none
  | some (account, l) =>
    match unpackBE 8 l with
    | none => none
    | some (create_time, l) =>
      match unpackBE 4 l with
      | none => none
      | some (id, l) =>
        match unpackstr l with
        | none => none
        | some (name, l) =>
          match unpackstr l with
          | none => none
          | some (part, l) =>
            match unpackstr l with
            | none => none
            | some (pool, l) =>
              match unpackstr l with
              | none => none
              | some (qos, l) =>
                match unpackBE 4 l with
                | none => none
                | some (user_id, l) =>
                  match unpackBE 8 l with
                  | none => none
                  | some (size, l) =>
                    some (⟨account, create_time, id, name, part, pool, qos, user_id, size⟩, l)

/-- Well-formedness of one record: every numeric field fits its wire width
and every string's length fits the 32-bit length prefix. -/
def wfRec (b : BbAlloc) : Prop :=
  b.account.length < 256 ^ 4 ∧ b.create_time < 256 ^ 8 ∧ b.id < 256 ^ 4 ∧
    b.name.length < 256 ^ 4 ∧ b.partition.length < 256 ^ 4 ∧ b.pool.length < 256 ^ 4 ∧
    b.qos.length < 256 ^ 4 ∧ b.user_id < 256 ^ 4 ∧ b.size < 256 ^ 8

instance (b : BbAlloc) : Decidable (wfRec b) := by
  unfold wfRec; infer_instance

/-- True when the first byte of `name` is an ASCII decimal digit, the test
`name && (name[0] >= '0') && (name[0] <= '9')` of line 343 (a NULL name is
the empty list and fails the test). -/
def digitStart : List Nat → Bool
  | [] => false
  | c :: _ => decide (48 ≤ c ∧ c ≤ 57)

/-- Modelled from the spec: `strtol(name, &end_ptr, 10)` on a digit-leading
name parses the maximal leading run of decimal digits. -/
def parseDecAux : List Nat → Nat → Nat
  | [], acc => acc
  | c :: t, acc =>
    if 48 ≤ c ∧ c ≤ 57 then parseDecAux t (acc * 10 + (c - 48)) else acc

/-- Value of `strtol` base 10 on a byte-list name. -/
def parseDec (s : List Nat) : Nat := parseDecAux s 0

/-- Modelled from the spec: `bb_alloc_name_rec` (burst-buffer common library,
not under `src/`) creates a fresh record for key `(name, user_id)` with empty
remaining fields, stamped with the current time. -/
def freshRec (name : List Nat) (uid : Nat) (now : Nat) : BbAlloc :=
  ⟨[], 0, 0, name, [], [], [], uid, 0, 0, 0, 0, now⟩

/-- First group of assignments through the record pointer,
`_recover_bb_state` lines 342-349: `id`, the derived job-ID fields when the
name starts with a digit, `seen_time`, `size`. -/
def recStage1 (f : RecFields) (now : Nat) (b : BbAlloc) : BbAlloc :=
  let b1 := { b with id := f.id }
  let b2 :=
    if digitStart f.name then
      { b1 with job_id := parseDec f.name, array_job_id := parseDec f.name,
                array_task_id := NO_VAL }
    else b1
  { b2 with seen_time := now, size := f.size }

/-- Second group of assignments, the block guarded by `if (bb_alloc)` at
lines 350-366: the string fields and `create_time` are overwritten with the
decoded values. -/
def recStage2 (f : RecFields) (b : BbAlloc) : BbAlloc :=
  { b with account := f.account, create_time := f.create_time,
           partition := f.partition, pool := f.pool, qos := f.qos }

/-- Modelled from the spec: `bb_alloc_name_rec` looks up or creates a record
keyed by `(name, ownerUserID)`; its C return type is a pointer, modelled as
an `Option` that is always `some` (the function never returns NULL). -/
def bb_alloc_name_rec (st : List BbAlloc) (name : List Nat) (uid : Nat) (now : Nat) :
    Option BbAlloc :=
  some (match st.find? (fun c => c.name == name && c.user_id == uid) with
        | some c => c
        | none => freshRec name uid now)

/-- Whether the registry chain holds a record keyed `(name, uid)`. -/
def hasKey (st : List BbAlloc) (name : List Nat) (uid : Nat) : Bool :=
  st.any (fun c => c.name == name && c.user_id == uid)

/-- Update the first record satisfying `p` in place (the C code mutates the
record through the pointer returned by lookup, leaving its chain position
unchanged). -/
def updateFirst : List BbAlloc → (BbAlloc → Bool) → (BbAlloc → BbAlloc) → List BbAlloc
  | [], _, _ => []
  | b :: bs, p, g => if p b then g b :: bs else b :: updateFirst bs p g

/-- One iteration of the recovery loop body applied to the registry chain,
with the `if (bb_alloc)` null test of line 350 modelled faithfully: stage 2
runs only when `bb_alloc_name_rec` returned a record. -/
def applyRecovered (st : List BbAlloc) (f : RecFields) (now : Nat) : List BbAlloc :=
  let g : BbAlloc → BbAlloc := fun b =>
    let b1 := recStage1 f now b
    if (bb_alloc_name_rec st f.name f.user_id now).isSome then recStage2 f b1 else b1
  if hasKey st f.name f.user_id then
    updateFirst st (fun c => c.name == f.name && c.user_id == f.user_id) g
  else
    g (freshRec f.name f.user_id now) :: st

/-- The recovery loop body with the null test removed: both assignment
stages run unconditionally. -/
def applyRecoveredUnguarded (st : List BbAlloc) (f : RecFields) (now : Nat) : List BbAlloc :=
  let g : BbAlloc → BbAlloc := fun b => recStage2 f (recStage1 f now b)
  if hasKey st f.name f.user_id then
    updateFirst st (fun c => c.name == f.name && c.user_id == f.user_id) g
  else
    g (freshRec f.name f.user_id now) :: st

/-- The C locals of `_recover_bb_state` that survive from one loop iteration
to the next: the string pointers (freed and reset to NULL at the end of each
iteration, lines 367-371) and the numeric locals (never reset). -/
structure LoopVars where
  account : List Nat
  name : List Nat
  partition : List Nat
  pool : List Nat
  qos : List Nat
  create_time : Nat
  id : Nat
  user_id : Nat
  size : Nat
deriving DecidableEq, Repr

/-- Initial values of the loop locals (lines 277-285: NULL strings, zero
numerics). -/
def initVars : LoopVars := ⟨[], [], [], [], [], 0, 0, 0, 0⟩

/-- The loop locals viewed as record fields, used when the version branch at
line 329 does not unpack anything and the stale locals flow into the record. -/
def varsToFields (v : LoopVars) : RecFields :=
  ⟨v.account, v.create_time, v.id, v.name, v.partition, v.pool, v.qos, v.user_id, v.size⟩

/-- The loop locals after an iteration: strings freed to NULL, numerics
keeping the values of the fields just processed. -/
def varsAfter (f : RecFields) : LoopVars :=
  ⟨[], [], [], [], [], f.create_time, f.id, f.user_id, f.size⟩

/-- The record loop of `_recover_bb_state` lines 328-372, iterated
`rec_count` times.  Returns the final chain and `true` when a short read
jumped to `unpack_error`.  When the version is at or above the floor the nine
fields are unpacked; otherwise nothing is read and the stale locals are
applied as a record (the C code has no version-rejection branch). -/
def recoverLoop (ver now : Nat) : Nat → List Nat → LoopVars → List BbAlloc →
    List BbAlloc × Bool
  | 0, _, _, st => (st, false)
  | n + 1, buf, v, st =>
    if SLURM_21_08_PROTOCOL_VERSION ≤ ver then
      match unpackRec buf with
      | none => (st, true)
      | some (f, rest) =>
        recoverLoop ver now n rest (varsAfter f) (applyRecovered st f now)
    else
      let f := varsToFields v
      recoverLoop ver now n buf (varsAfter f) (applyRecovered st f now)

/-- Outcome of `_recover_bb_state`: no state file; process-fatal on an
incompatible version or a truncated stream when `ignore_state_errors` is
unset; a logged-and-tolerated failure carrying the chain as left behind; or
clean success. -/
inductive RecResult where
  | noFile : RecResult
  | fatalIncompat : RecResult
  | fatalTrunc : RecResult
  | doneIncompat : List BbAlloc → RecResult
  | doneTrunc : List BbAlloc → RecResult
  | ok : List BbAlloc → RecResult
deriving DecidableEq, Repr

/-- Full model of `_recover_bb_state` (lines 273-388).  `file` is the result
of `bb_open_state_file` plus the read loop: `none` when the canonical state
file is absent, otherwise the file bytes.  `st0` is the registry chain before
recovery and `now` the load time. -/
def recover_bb_state (ignore : Bool) (file : Option (List Nat)) (st0 : List BbAlloc)
    (now : Nat) : RecResult :=
  match file with
  | none => .noFile
  | some bytes =>
    match unpackBE 2 bytes with
    | none => if ignore then .doneTrunc st0 else .fatalTrunc
    | some (ver, rest) =>
      if ver = NO_VAL16 then
        if ignore then .doneIncompat st0 else .fatalIncompat
      else
        match unpackBE 4 rest with
        | none => if ignore then .doneTrunc st0 else .fatalTrunc
        | some (cnt, rest2) =>
          match recoverLoop ver now cnt rest2 initVars st0 with
          | (st1, true) => if ignore then .doneTrunc st1 else .fatalTrunc
          | (st1, false) => .ok st1

/-- The registry state (`bb_state_t`), restricted to the fields the core
touches: the allocation chain, `last_update_time` and `term_flag`. -/
structure BbState where
  bb_ahash : List BbAlloc
  last_update_time : Nat
  term_flag : Bool
deriving DecidableEq, Repr

/-- Model of `_load_state` (lines 395-402): recover, apply limits (a no-op),
then unconditionally stamp `last_update_time` with the current time.  `none`
models the process-fatal exit of a non-lenient unrecoverable decode. -/
def load_state (ignore : Bool) (file : Option (List Nat)) (st : BbState) (now : Nat) :
    Option BbState :=
  match recover_bb_state ignore file st.bb_ahash now with
  | .noFile => some { st with last_update_time := now }
  | .fatalIncompat => none
  | .fatalTrunc => none
  | .doneIncompat t => some { st with bb_ahash := t, last_update_time := now }
  | .doneTrunc t => some { st with bb_ahash := t, last_update_time := now }
  | .ok t => some { st with bb_ahash := t, last_update_time := now }

/-- The three physical names of the checkpoint during rotation:
`burst_buffer_lua_state` (reg), `.old` and `.new`; `none` means the name does
not exist in the state directory. -/
structure FS where
  reg : Option (List Nat)
  old : Option (List Nat)
  new : Option (List Nat)
deriving DecidableEq, Repr

/-- Outcome of one `write(2)` call in the write loop of lines 236-244: a
successful write of `n` bytes, a return of -1 with `errno == EINTR`, or a
return of -1 with any other `errno`. -/
inductive WRes where
  | ok : Nat → WRes
  | eintr : WRes
  | err : WRes
deriving DecidableEq, Repr

/-- Fault scenario for one `_save_bb_state` invocation: whether `creat`
fails (with its `errno`), the outcomes of the successive `write` calls, and
the return code of `fsync_and_close` (0 on success; `fsync_and_close` is
common-library code not under `src/`, modelled from the spec as an
independent flush/close step with its own status). -/
structure Fault where
  creatErr : Option Nat
  wtrace : List WRes
  syncRc : Nat
deriving DecidableEq, Repr

/-- The write loop of lines 236-244, faithful to the C arithmetic: on a
non-EINTR error it breaks (without recording an error code); on EINTR the
`amount` of -1 still flows into `nwrite -= amount` and `pos += amount`.
Returns the remaining `nwrite`, the bytes that landed in the file, and
whether the loop broke on an error.  Recursion is on the syscall trace; a
negative file position (reachable only after the EINTR slip, undefined
behavior in C) is clamped to zero when selecting bytes. -/
def writeLoop (data : List Nat) : List WRes → Int → Int → List Nat →
    Int × List Nat × Bool
  | [], _, nw, acc => (nw, acc, false)
  | w :: t, pos, nw, acc =>
    if nw ≤ 0 then (nw, acc, false)
    else
      match w with
      | .ok n => writeLoop data t (pos + n) (nw - n) (acc ++ (data.drop pos.toNat).take n)
      | .eintr => writeLoop data t (pos - 1) (nw + 1) acc
      | .err => (nw, acc, true)

/-- The five steps of the file shuffle of lines 255-265, as the list of
file-system states after each step: unlink `.old`; link reg to `.old`
(failing, non-fatally, when reg does not exist); unlink reg; link `.new` to
reg (failing when `.new` does not exist); unlink `.new`. -/
def rotateStates (fs : FS) : List FS :=
  let f1 : FS := { fs with old := none }
  let f2 : FS := if f1.reg.isSome then { f1 with old := f1.reg } else f1
  let f3 : FS := { f2 with reg := none }
  let f4 : FS := if f3.new.isSome then { f3 with reg := f3.new } else f3
  let f5 : FS := { f4 with new := none }
  [f1, f2, f3, f4, f5]

/-- The function-static locals of `_save_bb_state` (lines 174-175). -/
structure SaveStatics where
  last_save_time : Nat
  high_buffer_size : Nat
deriving DecidableEq, Repr

/-- Result of one `_save_bb_state` invocation: the file-system state, the
updated statics, whether the invocation returned at the skip test of lines
185-187 before encoding anything, and the final `error_code`. -/
structure SaveOut where
  fs : FS
  statics : SaveStatics
  skipped : Bool
  error_code : Nat
deriving DecidableEq, Repr

/-- Model of `_save_bb_state` (lines 172-271).  `now` stands for both
`time(NULL)` readings of the call.  The encode phase packs the registry
chain exactly as `saveBuffer`; the file phase mirrors lines 227-266,
including the fact that a broken write loop does not set `error_code`, so the
rotation is skipped only when `creat` fails or `fsync_and_close` reports an
error. -/
def save_bb_state (st : BbState) (stcs : SaveStatics) (now : Nat) (fault : Fault)
    (fs : FS) : SaveOut :=
  if st.last_update_time ≤ stcs.last_save_time ∧ st.term_flag = false then
    ⟨fs, stcs, true, 0⟩
  else
    let data := saveBuffer st.bb_ahash
    match fault.creatErr with
    | some e => ⟨{ fs with new := none }, stcs, false, e⟩
    | none =>
      let high := max data.length stcs.high_buffer_size
      let wres := writeLoop data fault.wtrace 0 (data.length : Int) []
      let fs1 : FS := { fs with new := some wres.2.1 }
      if fault.syncRc ≠ 0 then
        ⟨{ fs1 with new := none }, { stcs with high_buffer_size := high }, false,
          fault.syncRc⟩
      else
        ⟨(rotateStates fs1).getLastD fs1,
          { last_save_time := now, high_buffer_size := high }, false, 0⟩

/-- The fault-free scenario: `creat` succeeds, a single `write` transfers
all `n` requested bytes, and `fsync_and_close` succeeds. -/
def cleanFault (n : Nat) : Fault := ⟨none, [.ok n], 0⟩

/-- Folding the recovery loop body over a list of records, as the decode of
a well-formed stream performs it. -/
def applyAll (now : Nat) (recs : List BbAlloc) (st : List BbAlloc) : List BbAlloc :=
  recs.foldl (fun s b => applyRecovered s (fieldsOf b) now) st

/-- The record that recovery leaves in the registry for a freshly created
key: the fresh record with both assignment stages applied. -/
def loadRec (now : Nat) (b : BbAlloc) : BbAlloc :=
  recStage2 (fieldsOf b) (recStage1 (fieldsOf b) now (freshRec b.name b.user_id now))

/-- The registry key of a record. -/
def keyOf (b : BbAlloc) : List Nat × Nat := (b.name, b.user_id)

/-- The checkpointed view of a record: its key plus the seven persisted
payload fields (everything that survives an encode/decode round trip). -/
def recView (b : BbAlloc) :
    (List Nat × Nat) × Nat × Nat × List Nat × List Nat × List Nat × List Nat × Nat :=
  ((b.name, b.user_id), b.id, b.create_time, b.account, b.partition, b.pool, b.qos, b.size)

/-- A concrete all-empty record used in concrete scenarios. -/
def zeroRec : BbAlloc := ⟨[], 0, 0, [], [], [], [], 0, 0, 0, 0, 0, 0⟩

/-- A concrete sample record with key `("1", 4)`. -/
def recA : BbAlloc := ⟨[1], 2, 3, [49], [], [], [5], 4, 6, 0, 0, 0, 0⟩

/-- A concrete sample record with key `("", 8)`. -/
def recB : BbAlloc := ⟨[], 10, 11, [], [7], [], [], 8, 12, 0, 0, 0, 0⟩

/-- Concrete decoded fields carrying the numeric name "12345"
(bytes 49..53). -/
def numFields : RecFields := ⟨[], 0, 0, [49, 50, 51, 52, 53], [], [], [], 0, 0⟩

theorem packBE_length (w n : Nat) : (packBE w n).length = w := by
  induction w generalizing n with
  | zero => rfl
  | succ w ih => simp [packBE, ih]

theorem unpackBE_packBE (w n : Nat) (r : List Nat) :
    unpackBE w (packBE w n ++ r) = some (n % 256 ^ w, r) := by
  induction w generalizing n with
  | zero => simp [packBE, unpackBE, Nat.mod_one]
  | succ w ih =>
    have hstep : n % (256 ^ w * 256) = n % 256 ^ w + 256 ^ w * (n / 256 ^ w % 256) :=
      Nat.mod_mul
    simp [packBE, unpackBE, ih, pow_succ, hstep]
    ring

theorem unpackBE_packBE_of_lt (w n : Nat) (r : List Nat) (h : n < 256 ^ w) :
    unpackBE w (packBE w n ++ r) = some (n, r) := by
  rw [unpackBE_packBE, Nat.mod_eq_of_lt h]

theorem unpackstr_packstr (s : List Nat) (r : List Nat) (h : s.length < 256 ^ 4) :
    unpackstr (packstr s ++ r) = some (s, r) := by
  have h4 : unpackBE 4 (packBE 4 s.length ++ (s ++ r)) = some (s.length, s ++ r) :=
    unpackBE_packBE_of_lt 4 s.length (s ++ r) h
  simp [unpackstr, packstr, pack32, List.append_assoc] at h4 ⊢
  rw [h4]
  simp

theorem unpackRec_packRec (b : BbAlloc) (r : List Nat) (h : wfRec b) :
    unpackRec (packRec b ++ r) = some (fieldsOf b, r) := by
  obtain ⟨h1, h2, h3, h4, h5, h6, h7, h8, h9⟩ := h
  simp only [packRec, pack_time, pack32, pack64, List.append_assoc]
  simp only [unpackRec, unpackstr_packstr _ _ h1, unpackBE_packBE_of_lt _ _ _ h2,
    unpackBE_packBE_of_lt _ _ _ h3, unpackstr_packstr _ _ h4, unpackstr_packstr _ _ h5,
    unpackstr_packstr _ _ h6, unpackstr_packstr _ _ h7, unpackBE_packBE_of_lt _ _ _ h8,
    unpackBE_packBE_of_lt _ _ _ h9]
  rfl

theorem bb_alloc_name_rec_isSome (st : List BbAlloc) (name : List Nat) (uid now : Nat) :
    (bb_alloc_name_rec st name uid now).isSome = true := rfl

theorem applyRecovered_eq_unguarded :
    applyRecovered = applyRecoveredUnguarded := by
  funext st f now
  simp [applyRecovered, applyRecoveredUnguarded, bb_alloc_name_rec]

theorem applyRecovered_insert (st : List BbAlloc) (f : RecFields) (now : Nat)
    (h : hasKey st f.name f.user_id = false) :
    applyRecovered st f now
      = recStage2 f (recStage1 f now (freshRec f.name f.user_id now)) :: st := by
  simp [applyRecovered, h, bb_alloc_name_rec]

theorem loadRec_name (now : Nat) (b : BbAlloc) : (loadRec now b).name = b.name := by
  simp only [loadRec, recStage1, recStage2, freshRec, fieldsOf]
  split <;> rfl

theorem loadRec_user_id (now : Nat) (b : BbAlloc) : (loadRec now b).user_id = b.user_id := by
  simp only [loadRec, recStage1, recStage2, freshRec, fieldsOf]
  split <;> rfl

theorem recView_loadRec (now : Nat) (b : BbAlloc) : recView (loadRec now b) = recView b := by
  simp only [recView, loadRec, recStage1, recStage2, freshRec, fieldsOf]
  split <;> rfl

theorem applyAll_nil (now : Nat) (st : List BbAlloc) : applyAll now [] st = st := rfl

theorem applyAll_cons (now : Nat) (b : BbAlloc) (l st : List BbAlloc) :
    applyAll now (b :: l) st = applyAll now l (applyRecovered st (fieldsOf b) now) := rfl

theorem hasKey_cons (b : BbAlloc) (st : List BbAlloc) (name : List Nat) (uid : Nat) :
    hasKey (b :: st) name uid
      = ((b.name == name && b.user_id == uid) || hasKey st name uid) := rfl

theorem applyAll_insert_all (now : Nat) :
    ∀ (recs : List BbAlloc) (st : List BbAlloc),
      (∀ b ∈ recs, hasKey st b.name b.user_id = false) →
      ((recs.map keyOf).Nodup) →
      applyAll now recs st = (recs.map (loadRec now)).reverse ++ st := by
  intro recs
  induction recs with
  | nil => intro st _ _; simp [applyAll]
  | cons b l ih =>
    intro st hst hnd
    have hb : hasKey st b.name b.user_id = false := hst b (List.mem_cons_self b l)
    rw [applyAll_cons, applyRecovered_insert st (fieldsOf b) now hb]
    have hkey : keyOf b ∉ l.map keyOf := (List.nodup_cons.mp hnd).1
    have hst' : ∀ c ∈ l, hasKey (loadRec now b :: st) c.name c.user_id = false := by
      intro c hc
      rw [hasKey_cons]
      have hne : ¬(b.name = c.name ∧ b.user_id = c.user_id) := by
        intro ⟨e1, e2⟩
        apply hkey
        have : keyOf b = keyOf c := by simp [keyOf, e1, e2]
        rw [this]
        exact List.mem_map_of_mem keyOf hc
      have h1 : ((loadRec now b).name == c.name && (loadRec now b).user_id == c.user_id)
          = false := by
        rw [loadRec_name, loadRec_user_id]
        by_cases e1 : b.name = c.name
        · by_cases e2 : b.user_id = c.user_id
          · exact absurd ⟨e1, e2⟩ hne
          · simp [e2]
        · simp [e1]
      rw [h1, hst c (List.mem_cons_of_mem b hc)]
      rfl
    have hload : recStage2 (fieldsOf b) (recStage1 (fieldsOf b) now
        (freshRec (fieldsOf b).name (fieldsOf b).user_id now)) = loadRec now b := rfl
    rw [hload, ih (loadRec now b :: st) hst' (List.nodup_cons.mp hnd).2]
    simp

theorem recoverLoop_floor_unpack (now : Nat) (n : Nat) (buf : List Nat) (v : LoopVars)
    (st : List BbAlloc) :
    recoverLoop SLURM_PROTOCOL_VERSION now (n + 1) buf v st
      = match unpackRec buf with
        | none => (st, true)
        | some (f, rest) =>
          recoverLoop SLURM_PROTOCOL_VERSION now n rest (varsAfter f)
            (applyRecovered st f now) := by
  rw [recoverLoop]
  simp [SLURM_21_08_PROTOCOL_VERSION, SLURM_PROTOCOL_VERSION]

theorem recoverLoop_append (now m : Nat) (tail : List Nat) :
    ∀ (recs : List BbAlloc), (∀ b ∈ recs, wfRec b) →
    ∀ (v : LoopVars) (st : List BbAlloc),
    ∃ v', recoverLoop SLURM_PROTOCOL_VERSION now (recs.length + m)
        (recs.flatMap packRec ++ tail) v st
      = recoverLoop SLURM_PROTOCOL_VERSION now m tail v' (applyAll now recs st) := by
  intro recs
  induction recs with
  | nil =>
    intro _ v st
    exact ⟨v, by simp [applyAll]⟩
  | cons b l ih =>
    intro hwf v st
    have hb : wfRec b := hwf b (List.mem_cons_self b l)
    have hl : ∀ c ∈ l, wfRec c := fun c hc => hwf c (List.mem_cons_of_mem b hc)
    obtain ⟨v', hv⟩ := ih hl (varsAfter (fieldsOf b)) (applyRecovered st (fieldsOf b) now)
    refine ⟨v', ?_⟩
    have hcount : (b :: l).length + m = (l.length + m) + 1 := by
      simp [List.length_cons]
      omega
    rw [hcount, List.flatMap_cons, List.append_assoc, recoverLoop_floor_unpack,
      unpackRec_packRec b _ hb]
    rw [applyAll_cons]
    exact hv

theorem saveBuffer_length (recs : List BbAlloc) :
    (saveBuffer recs).length = 6 + (recs.flatMap packRec).length := by
  simp [saveBuffer, pack16, pack32, packBE_length]
  omega

theorem recover_saveBuffer (ig : Bool) (recs st0 : List BbAlloc) (now : Nat)
    (hwf : ∀ b ∈ recs, wfRec b) (hlen : recs.length < 256 ^ 4) :
    recover_bb_state ig (some (saveBuffer recs)) st0 now = .ok (applyAll now recs st0) := by
  obtain ⟨v', hloop⟩ := recoverLoop_append now 0 [] recs hwf initVars st0
  rw [List.append_nil, Nat.add_zero] at hloop
  have hsplit : saveBuffer recs
      = pack16 SLURM_PROTOCOL_VERSION ++ (pack32 recs.length ++ recs.flatMap packRec) := by
    rw [saveBuffer, List.append_assoc]
  have h2 : unpackBE 2 (pack16 SLURM_PROTOCOL_VERSION ++
      (pack32 recs.length ++ recs.flatMap packRec))
      = some (SLURM_PROTOCOL_VERSION, pack32 recs.length ++ recs.flatMap packRec) :=
    unpackBE_packBE_of_lt 2 _ _ (by norm_num [SLURM_PROTOCOL_VERSION])
  have h4 : unpackBE 4 (pack32 recs.length ++ recs.flatMap packRec)
      = some (recs.length, recs.flatMap packRec) :=
    unpackBE_packBE_of_lt 4 _ _ hlen
  have hz : recoverLoop SLURM_PROTOCOL_VERSION now 0 [] v' (applyAll now recs st0)
      = (applyAll now recs st0, false) := rfl
  simp only [recover_bb_state, hsplit, h2, h4, hloop, hz]
  simp [SLURM_PROTOCOL_VERSION, NO_VAL16]

theorem rotate_final (fs : FS) (c : List Nat) :
    (rotateStates { fs with new := some c }).getLastD { fs with new := some c }
      = ⟨some c, fs.reg, none⟩ := by
  cases hr : fs.reg <;> simp [rotateStates, hr]

theorem writeLoop_clean (data : List Nat) (hpos : 0 < data.length) :
    writeLoop data [WRes.ok data.length] 0 (data.length : Int) []
      = (0, data, false) := by
  have hneg : ¬((data.length : Int) ≤ 0) := by
    simp only [not_le]
    exact_mod_cast hpos
  rw [writeLoop, if_neg hneg]
  simp [writeLoop]

theorem save_clean (st : BbState) (stcs : SaveStatics) (fs : FS) (now : Nat)
    (h : ¬(st.last_update_time ≤ stcs.last_save_time ∧ st.term_flag = false)) :
    save_bb_state st stcs now (cleanFault (saveBuffer st.bb_ahash).length) fs
      = ⟨⟨some (saveBuffer st.bb_ahash), fs.reg, none⟩,
         ⟨now, max (saveBuffer st.bb_ahash).length stcs.high_buffer_size⟩, false, 0⟩ := by
  have hpos : 0 < (saveBuffer st.bb_ahash).length := by
    rw [saveBuffer_length]; omega
  have hwl := writeLoop_clean (saveBuffer st.bb_ahash) hpos
  simp only [save_bb_state, cleanFault, if_neg h, hwl]
  cases hr : fs.reg <;> simp [rotateStates, hr]

theorem save_skip (st : BbState) (stcs : SaveStatics) (now : Nat) (fault : Fault) (fs : FS)
    (h : st.last_update_time ≤ stcs.last_save_time ∧ st.term_flag = false) :
    save_bb_state st stcs now fault fs = ⟨fs, stcs, true, 0⟩ := by
  simp [save_bb_state, h]

theorem save_skipped_iff (st : BbState) (stcs : SaveStatics) (now : Nat) (fault : Fault)
    (fs : FS) :
    (save_bb_state st stcs now fault fs).skipped = true
      ↔ (st.last_update_time ≤ stcs.last_save_time ∧ st.term_flag = false) := by
  by_cases h : st.last_update_time ≤ stcs.last_save_time ∧ st.term_flag = false
  · simp [save_bb_state, h]
  · simp only [save_bb_state, if_neg h]
    rcases fault with ⟨ce, wt, sr⟩
    cases ce
    · by_cases hs : sr ≠ 0 <;> simp [hs, h]
    · simp [h]

/-- C5: a checkpoint stream whose leading 16-bit version tag is the
`NO_VAL16` "unset" sentinel fails with the incompatible-version outcome
before reading any record: the registry is returned unchanged, the failure
is process-fatal unless lenient mode is set, and in lenient mode it is
logged and the pre-existing (empty at startup) registry is kept. -/
theorem c5_sentinel_version (ig : Bool) (rest : List Nat) (st0 : List BbAlloc) (now : Nat) :
    recover_bb_state ig (some (pack16 NO_VAL16 ++ rest)) st0 now
      = if ig then RecResult.doneIncompat st0 else RecResult.fatalIncompat := by
  have h2 : unpackBE 2 (pack16 NO_VAL16 ++ rest) = some (NO_VAL16, rest) :=
    unpackBE_packBE_of_lt 2 _ _ (by norm_num [NO_VAL16])
  simp only [recover_bb_state, h2, if_pos rfl]
  simp

/-- C2 (code bug): a payload with a recognized version tag strictly below
the supported floor (9216, the 20.11 version) and a declared record count of
one is not rejected: `_recover_bb_state` skips all field unpacking for that
version yet still runs the loop body, creating a registry record with empty
name, owner 0 and zeroed fields, and reports success. -/
theorem c2_below_floor_record_applied :
    recover_bb_state true (some (pack16 9216 ++ pack32 1)) [] 7
      = RecResult.ok [⟨[], 0, 0, [], [], [], [], 0, 0, 0, 0, 0, 7⟩]
    ∧ 9216 < SLURM_21_08_PROTOCOL_VERSION ∧ 9216 ≠ NO_VAL16 := by
  decide

/-- C8: every record applied during recovery gets `seen_time` stamped with
the load time; when its decoded name starts with a decimal digit the job-ID
fields are derived from the name (`job_id` and `array_job_id` from `strtol`,
`array_task_id` set to the `NO_VAL` sentinel), and when it does not, the
three job-ID fields are left exactly as they were on the looked-up or
freshly created record; the name "12345" parses to 12345. -/
theorem c8_recovered_fields :
    (∀ (f : RecFields) (now : Nat) (b : BbAlloc),
       (recStage2 f (recStage1 f now b)).seen_time = now
       ∧ (digitStart f.name = true →
            (recStage2 f (recStage1 f now b)).job_id = parseDec f.name
            ∧ (recStage2 f (recStage1 f now b)).array_job_id = parseDec f.name
            ∧ (recStage2 f (recStage1 f now b)).array_task_id = NO_VAL)
       ∧ (digitStart f.name = false →
            (recStage2 f (recStage1 f now b)).job_id = b.job_id
            ∧ (recStage2 f (recStage1 f now b)).array_job_id = b.array_job_id
            ∧ (recStage2 f (recStage1 f now b)).array_task_id = b.array_task_id))
    ∧ parseDec [49, 50, 51, 52, 53] = 12345
    ∧ digitStart [49, 50, 51, 52, 53] = true := by
  refine ⟨?_, by decide, by decide⟩
  intro f now b
  refine ⟨?_, fun h => ?_, fun h => ?_⟩
  · simp only [recStage1, recStage2]
  · simp [recStage1, recStage2, h]
  · simp [recStage1, recStage2, h]

/-- Witness for C8: the derivation at the concrete decoded name "12345"
applied to the all-zero pre-record at load time 9. -/
theorem c8_recovered_fields_witness :
    digitStart numFields.name = true
    ∧ (recStage2 numFields (recStage1 numFields 9 zeroRec)).seen_time = 9
    ∧ (recStage2 numFields (recStage1 numFields 9 zeroRec)).job_id = 12345
    ∧ (recStage2 numFields (recStage1 numFields 9 zeroRec)).array_job_id = 12345
    ∧ (recStage2 numFields (recStage1 numFields 9 zeroRec)).array_task_id = NO_VAL := by
  obtain ⟨hmain, hparse, _⟩ := c8_recovered_fields
  obtain ⟨hseen, hder, _⟩ := hmain numFields 9 zeroRec
  obtain ⟨h1, h2, h3⟩ := hder (by decide)
  exact ⟨by decide, hseen, h1.trans hparse, h2.trans hparse, h3⟩

/-- C9 (counterexample): loading with the canonical checkpoint file absent
is not a no-op on the registry state: at a concrete state with
`last_update_time = 0` and load time 5, `_load_state` returns a changed
state (it stamps `last_update_time`). -/
theorem c9_counterexample :
    load_state true none ⟨[], 0, false⟩ 5 ≠ some ⟨[], 0, false⟩ := by
  decide

/-- C9 (amended): when the canonical checkpoint file is absent, `_load_state`
returns cleanly, leaves the allocation table and the termination flag
unchanged, but unconditionally sets `last_update_time` to the load time
(line 399 runs on every load, including the missing-file case). -/
theorem c9_load_missing_file (ig : Bool) (st : BbState) (now : Nat) :
    load_state ig none st now = some ⟨st.bb_ahash, now, st.term_flag⟩ := rfl

/-- C10: the lookup-or-create operation of recovery always returns a record
(modelled from the spec as never NULL, the precondition under which the
record dereferences at lines 342-349 are well-defined), hence the
`if (bb_alloc)` guard at line 350 never takes its false branch: the guarded
loop body coincides with the body that runs the string-overwrite stage
unconditionally. -/
theorem c10_guard_never_false :
    (∀ (st : List BbAlloc) (name : List Nat) (uid now : Nat),
       (bb_alloc_name_rec st name uid now).isSome = true)
    ∧ applyRecovered = applyRecoveredUnguarded :=
  ⟨fun _ _ _ _ => rfl, applyRecovered_eq_unguarded⟩

/-- C3: encoding any finite registry of well-formed records with distinct
(name, owner) keys and then decoding the resulting byte stream succeeds and
yields exactly the same records — same `(name, ownerUserID)` keys and same
`id`, `account`, `createTime`, `partition`, `pool`, `qos`, `sizeBytes`
values — up to iteration order. -/
theorem c3_roundtrip (ig : Bool) (recs : List BbAlloc) (now : Nat)
    (hwf : ∀ b ∈ recs, wfRec b) (hnd : (recs.map keyOf).Nodup)
    (hlen : recs.length < 256 ^ 4) :
    ∃ st, recover_bb_state ig (some (saveBuffer recs)) [] now = RecResult.ok st
      ∧ (st.map recView).Perm (recs.map recView) := by
  refine ⟨applyAll now recs [], recover_saveBuffer ig recs [] now hwf hlen, ?_⟩
  rw [applyAll_insert_all now recs [] (fun b _ => rfl) hnd]
  rw [List.append_nil, List.map_reverse]
  have hmap : (recs.map (loadRec now)).map recView = recs.map recView := by
    rw [List.map_map]
    exact List.map_congr_left fun b _ => recView_loadRec now b
  rw [hmap]
  exact List.reverse_perm _

/-- Witness for C3: the two-record registry `[recA, recB]` round-trips at
load time 5. -/
theorem c3_roundtrip_witness :
    (∀ b ∈ [recA, recB], wfRec b)
    ∧ (([recA, recB].map keyOf).Nodup)
    ∧ ([recA, recB] : List BbAlloc).length < 256 ^ 4
    ∧ ∃ st, recover_bb_state true (some (saveBuffer [recA, recB])) [] 5 = RecResult.ok st
        ∧ (st.map recView).Perm ([recA, recB].map recView) :=
  ⟨by decide, by decide, by decide,
    c3_roundtrip true [recA, recB] 5 (by decide) (by decide) (by decide)⟩

/-- C4: a version-valid checkpoint stream whose record area, after some
fully decodable records, ends in bytes that cannot be unpacked as one more
record (while the declared count promises more) aborts the decode with the
truncated-checkpoint outcome; the records decoded before the failure remain
applied to the registry (no rollback); the failure is process-fatal unless
`ignore_state_errors` is set, in which case it is logged and the loader
returns with the partial registry and the remaining records discarded. -/
theorem c4_truncated_decode (ig : Bool) (recs : List BbAlloc) (tail : List Nat)
    (cnt now : Nat) (st0 : List BbAlloc)
    (hwf : ∀ b ∈ recs, wfRec b) (htail : unpackRec tail = none)
    (hcnt : recs.length < cnt) (hcnt32 : cnt < 256 ^ 4) :
    recover_bb_state ig
        (some (pack16 SLURM_PROTOCOL_VERSION ++ pack32 cnt ++
          (recs.flatMap packRec ++ tail))) st0 now
      = if ig then RecResult.doneTrunc (applyAll now recs st0)
        else RecResult.fatalTrunc := by
  obtain ⟨m, hm⟩ : ∃ m, cnt = recs.length + (m + 1) := ⟨cnt - recs.length - 1, by omega⟩
  obtain ⟨v1, hloop⟩ := recoverLoop_append now (m + 1) tail recs hwf initVars st0
  have hstep : recoverLoop SLURM_PROTOCOL_VERSION now (m + 1) tail v1
      (applyAll now recs st0) = (applyAll now recs st0, true) := by
    rw [recoverLoop_floor_unpack, htail]
  have h2 : unpackBE 2 (pack16 SLURM_PROTOCOL_VERSION ++
      (pack32 cnt ++ (recs.flatMap packRec ++ tail)))
      = some (SLURM_PROTOCOL_VERSION, pack32 cnt ++ (recs.flatMap packRec ++ tail)) :=
    unpackBE_packBE_of_lt 2 _ _ (by norm_num [SLURM_PROTOCOL_VERSION])
  have h4 : unpackBE 4 (pack32 cnt ++ (recs.flatMap packRec ++ tail))
      = some (cnt, recs.flatMap packRec ++ tail) :=
    unpackBE_packBE_of_lt 4 _ _ hcnt32
  rw [List.append_assoc]
  simp only [recover_bb_state, h2, h4]
  rw [hm, hloop, hstep]
  simp [SLURM_PROTOCOL_VERSION, NO_VAL16]

/-- Witness for C4: one full record followed by three stray bytes, with a
declared count of two, in lenient mode at load time 5. -/
theorem c4_truncated_decode_witness :
    (∀ b ∈ [recA], wfRec b)
    ∧ unpackRec [0, 0, 0] = none
    ∧ ([recA] : List BbAlloc).length < 2
    ∧ (2 : Nat) < 256 ^ 4
    ∧ recover_bb_state true
        (some (pack16 SLURM_PROTOCOL_VERSION ++ pack32 2 ++
          ([recA].flatMap packRec ++ [0, 0, 0]))) [] 5
      = if true then RecResult.doneTrunc (applyAll 5 [recA] [])
        else RecResult.fatalTrunc :=
  ⟨by decide, by decide, by decide, by decide,
    c4_truncated_decode true [recA] [0, 0, 0] 2 5 [] (by decide) (by decide)
      (by decide) (by decide)⟩

/-- C6: `_save_bb_state` is skipped (returning before anything is encoded
and with the file system and statics untouched) exactly when
`last_update_time` has not advanced past the last successful save time and
no shutdown is in progress; and two consecutive saves of the same registry
content with no intervening mutation (the second one either outside
shutdown, with any fault scenario, or fault-free) leave the canonical
file's content — hence its decoded content — unchanged. -/
theorem c6_skip_iff_and_idempotent :
    (∀ (st : BbState) (stcs : SaveStatics) (now : Nat) (fault : Fault) (fs : FS),
       (save_bb_state st stcs now fault fs).skipped = true
         ↔ (st.last_update_time ≤ stcs.last_save_time ∧ st.term_flag = false))
    ∧ (∀ (st : BbState) (stcs : SaveStatics) (now : Nat) (fault : Fault) (fs : FS),
         st.last_update_time ≤ stcs.last_save_time → st.term_flag = false →
         save_bb_state st stcs now fault fs = ⟨fs, stcs, true, 0⟩)
    ∧ (∀ (st : BbState) (stcs : SaveStatics) (fs : FS) (now1 now2 : Nat) (f2 : Fault),
         st.last_update_time ≤ now1 →
         (st.term_flag = false ∨ f2 = cleanFault (saveBuffer st.bb_ahash).length) →
         ((save_bb_state st
             (save_bb_state st stcs now1 (cleanFault (saveBuffer st.bb_ahash).length)
               fs).statics
             now2 f2
             (save_bb_state st stcs now1 (cleanFault (saveBuffer st.bb_ahash).length)
               fs).fs).fs).reg
           = ((save_bb_state st stcs now1 (cleanFault (saveBuffer st.bb_ahash).length)
               fs).fs).reg) := by
  refine ⟨save_skipped_iff, fun st stcs now fault fs h1 h2 => save_skip _ _ _ _ _ ⟨h1, h2⟩, ?_⟩
  intro st stcs fs now1 now2 f2 hmono hcase
  by_cases hg : st.last_update_time ≤ stcs.last_save_time ∧ st.term_flag = false
  · rw [save_skip st stcs now1 _ fs hg]
    show ((save_bb_state st stcs now2 f2 fs).fs).reg = fs.reg
    rw [save_skip st stcs now2 f2 fs hg]
  · rw [save_clean st stcs fs now1 hg]
    rcases hcase with hterm | hf2
    · have hg2 : st.last_update_time
          ≤ (SaveStatics.mk now1
              (max (saveBuffer st.bb_ahash).length stcs.high_buffer_size)).last_save_time
          ∧ st.term_flag = false := ⟨hmono, hterm⟩
      show ((save_bb_state st _ now2 f2 _).fs).reg = _
      rw [save_skip st _ now2 f2 _ hg2]
    · subst hf2
      by_cases hg2 : st.last_update_time
          ≤ (SaveStatics.mk now1
              (max (saveBuffer st.bb_ahash).length stcs.high_buffer_size)).last_save_time
          ∧ st.term_flag = false
      · show ((save_bb_state st _ now2 _ _).fs).reg = _
        rw [save_skip st _ now2 _ _ hg2]
      · show ((save_bb_state st _ now2 _ _).fs).reg = _
        rw [save_clean st _ _ now2 hg2]

/-- Witness for C6: two consecutive saves of an empty registry with
`last_update_time = 3` from a fresh file system at times 3 and 9, the second
one with an arbitrary faulty scenario (it is skipped since no shutdown is in
progress), leave the canonical file identical. -/
theorem c6_skip_iff_and_idempotent_witness :
    (3 : Nat) ≤ 3
    ∧ ((save_bb_state ⟨[], 3, false⟩
          (save_bb_state ⟨[], 3, false⟩ ⟨0, 16⟩ 3 (cleanFault (saveBuffer []).length)
            ⟨none, none, none⟩).statics
          9 ⟨some 5, [], 7⟩
          (save_bb_state ⟨[], 3, false⟩ ⟨0, 16⟩ 3 (cleanFault (saveBuffer []).length)
            ⟨none, none, none⟩).fs).fs).reg
      = ((save_bb_state ⟨[], 3, false⟩ ⟨0, 16⟩ 3 (cleanFault (saveBuffer []).length)
            ⟨none, none, none⟩).fs).reg :=
  ⟨by decide,
    c6_skip_iff_and_idempotent.2.2 ⟨[], 3, false⟩ ⟨0, 16⟩ ⟨none, none, none⟩ 3 9
      ⟨some 5, [], 7⟩ (by decide) (Or.inl rfl)⟩

/-- C7 (counterexample): it is not the case that at every instant of the
rotation the canonical name refers to the previous or the new complete
checkpoint: starting from canonical content `[0]`, backup `[1]` and new
content `[2]`, the state after the third step (`unlink` of the canonical
name) has no canonical file at all. -/
theorem c7_counterexample :
    ¬ (∀ g ∈ rotateStates ⟨some [0], some [1], some [2]⟩,
        g.reg = some [0] ∨ g.reg = some [2]) := by
  decide

/-- C7 (amended): on a successful temp-file write the rotation performs
exactly the five steps in the claimed order — remove `.old`, hard-link the
canonical file to `.old` (non-fatal when the canonical file is missing, in
which case only the backup generation is lost), remove the canonical file,
hard-link `.new` to the canonical name, remove `.new` — and at every
observable instant the canonical name, when it refers to a file at all,
refers to either the previous or the new complete checkpoint, never a
partially written one; there is, however, a window (after step three) in
which the canonical name is absent.  The final state has the new checkpoint
under the canonical name. -/
theorem c7_rotation_amended (fs : FS) (h : fs.new.isSome = true) :
    rotateStates fs
      = [⟨fs.reg, none, fs.new⟩, ⟨fs.reg, fs.reg, fs.new⟩, ⟨none, fs.reg, fs.new⟩,
         ⟨fs.new, fs.reg, fs.new⟩, ⟨fs.new, fs.reg, none⟩]
    ∧ (∀ g ∈ rotateStates fs, ∀ c, g.reg = some c → fs.reg = some c ∨ fs.new = some c)
    ∧ ((rotateStates fs).getLastD fs).reg = fs.new
    ∧ (fs.reg = none → (rotateStates fs).getLastD fs = ⟨fs.new, none, none⟩) := by
  obtain ⟨r, o, n⟩ := fs
  obtain ⟨c, rfl⟩ : ∃ c, n = some c := Option.isSome_iff_exists.mp h
  have hlist : rotateStates ⟨r, o, some c⟩
      = [⟨r, none, some c⟩, ⟨r, r, some c⟩, ⟨none, r, some c⟩,
         ⟨some c, r, some c⟩, ⟨some c, r, none⟩] := by
    cases r <;> simp [rotateStates]
  refine ⟨hlist, ?_, ?_, ?_⟩
  · intro g hg d hd
    rw [hlist] at hg
    simp only [List.mem_cons, List.not_mem_nil, or_false] at hg
    rcases hg with rfl | rfl | rfl | rfl | rfl <;> simp_all
  · rw [hlist]
    rfl
  · intro hr
    rw [hlist]
    subst hr
    rfl

/-- Witness for C7: the rotation trace at the concrete starting state with
canonical `[0]`, backup `[1]` and temp `[2]`. -/
theorem c7_rotation_amended_witness :
    (FS.mk (some [0]) (some [1]) (some [2])).new.isSome = true
    ∧ rotateStates ⟨some [0], some [1], some [2]⟩
        = [⟨some [0], none, some [2]⟩, ⟨some [0], some [0], some [2]⟩,
           ⟨none, some [0], some [2]⟩, ⟨some [2], some [0], some [2]⟩,
           ⟨some [2], some [0], none⟩] :=
  ⟨rfl, (c7_rotation_amended ⟨some [0], some [1], some [2]⟩ rfl).1⟩

/-- C1 (code bug): with `creat` and `fsync_and_close` succeeding but a
`write` call failing with a non-EINTR error after 49 of the 50 encoded bytes,
the write loop breaks without setting `error_code`, so `_save_bb_state`
reports no error, does not delete the temp file early, and performs the
rotation, installing the truncated 49-byte temp file as the canonical
checkpoint and displacing the previous good copy to `.old`. -/
theorem c1_write_failure_not_reported :
    save_bb_state ⟨[zeroRec], 1, false⟩ ⟨0, 16384⟩ 5 ⟨none, [WRes.ok 49, WRes.err], 0⟩
        ⟨some [9, 9], some [8], none⟩
      = ⟨⟨some ((saveBuffer [zeroRec]).take 49), some [9, 9], none⟩, ⟨5, 16384⟩, false, 0⟩
    ∧ (saveBuffer [zeroRec]).length = 50
    ∧ (writeLoop (saveBuffer [zeroRec]) [WRes.ok 49, WRes.err] 0 50 []).2.2 = true
    ∧ (saveBuffer [zeroRec]).take 49 ≠ saveBuffer [zeroRec] := by
  decide

end BurstBufferLua
